import Mathlib

/-!
# nomi-cli: the `chat` command (chat.go)

A shallow embedding of `chat.go`: the identity lookup `findNomiByName`, the
session loop of `chatCmd.Run`, the terminal reset `clearScreen` and the
`spinner` goroutine.

Conventions of the embedding.

* Go strings are lists of Unicode code points (`Str`); standard input is taken to be
  valid UTF-8, so that a rune is a `Char` and the byte length of a string is the sum of
  the UTF-8 sizes of its runes.
* What the command does is recorded as a list of `Event`s in program order of the
  foreground goroutine. Deferred calls are kept on an explicit stack and run, most recent
  first, when `Run` returns.
* Everything outside the repository is an explicit input: the two package level
  variables `baseURL` and `apiKey`, the operating system name, the Unicode case tables,
  the URL parser behind `http.NewRequest`, and what the remote service answers to each
  request (`Env`). Standard input is an argument of `Run`.
* `bufio.Scanner`, `strings.TrimSpace`, `strings.ToLower` and `strings.EqualFold` are
  modelled after the Go standard library.
-/

namespace NomiCli

/-- Go strings, as lists of runes. -/
abbrev Str := List Char

/-! ## Standard library: package `strings` -/

/-- The predicate `unicode.IsSpace`: the Latin-1 spaces `\t \n \v \f \r`, space, U+0085 and
U+00A0, and the code points of category Z or property Pattern_White_Space above them. -/
def isSpace (c : Char) : Bool :=
  let n := c.toNat
  n = 0x09 || n = 0x0A || n = 0x0B || n = 0x0C || n = 0x0D || n = 0x20 ||
  n = 0x85 || n = 0xA0 || n = 0x1680 || (0x2000 ≤ n && n ≤ 0x200A) ||
  n = 0x2028 || n = 0x2029 || n = 0x202F || n = 0x205F || n = 0x3000

/-- The function `strings.TrimSpace`: all leading and trailing white space removed. -/
def TrimSpace (s : Str) : Str := (s.dropWhile isSpace).rdropWhile isSpace

/-- The function `unicode.ToLower` on one rune: `A`..`Z` are shifted to `a`..`z`, other
ASCII runes are kept, and a rune above ASCII is looked up in the case table `tbl`. -/
def toLowerRune (tbl : Char → Char) (c : Char) : Char :=
  if c.toNat ≤ 0x7F then
    (if 0x41 ≤ c.toNat ∧ c.toNat ≤ 0x5A then Char.ofNat (c.toNat + 0x20) else c)
  else tbl c

/-- The function `strings.ToLower`: every rune mapped by `unicode.ToLower` (the ASCII fast
path of the library computes the same string). -/
def ToLower (tbl : Char → Char) (s : Str) : Str := s.map (toLowerRune tbl)

/-- One step of `strings.EqualFold`: the two runes are equal, or, ordered as `lo < hi`,
they are an ASCII upper/lower pair when `hi` is ASCII, and otherwise `hi` is on the
simple-folding orbit of `lo` (`fold lo hi`, from the Unicode tables). -/
def equalFoldRune (fold : Char → Char → Bool) (sr tr : Char) : Bool :=
  if tr = sr then true
  else
    let lo := if tr.toNat < sr.toNat then tr else sr
    let hi := if tr.toNat < sr.toNat then sr else tr
    if hi.toNat < 0x80 then
      decide (0x41 ≤ lo.toNat ∧ lo.toNat ≤ 0x5A ∧ hi.toNat = lo.toNat + 0x20)
    else fold lo hi

/-- The function `strings.EqualFold`: equality under simple Unicode case folding, rune by
rune; strings of different rune counts are never equal. -/
def EqualFold (fold : Char → Char → Bool) : Str → Str → Bool
  | [], [] => true
  | sr :: s, tr :: t => equalFoldRune fold sr tr && EqualFold fold s t
  | _, _ => false

/-! ## Standard library: `bufio.Scanner` with the default split function `ScanLines` -/

/-- The constant `bufio.MaxScanTokenSize`: the size the scanner buffer may grow to. -/
def MaxScanTokenSize : Nat := 64 * 1024

/-- Length of a string in bytes (UTF-8). -/
def byteLen (s : Str) : Nat := (s.map Char.utf8Size).sum

/-- The helper `dropCR` of `bufio`: one trailing carriage return removed. -/
def dropCR (data : Str) : Str :=
  if data.getLast? = some '\r' then data.dropLast else data

/-- The input cut at every newline: a final line need not end in a newline, and the empty
input has no line. These are the candidates `ScanLines` looks for. -/
def splitLines : Str → List Str
  | [] => []
  | c :: cs =>
    if c = '\n' then [] :: splitLines cs
    else
      match splitLines cs with
      | [] => [[c]]
      | l :: ls => (c :: l) :: ls

/-- Successive calls of `Scanner.Scan` over the pending raw lines: the call returns `true`
with the line as token (`dropCR` applied) as long as the line leaves room in the buffer,
and `false` for good at the first line of `MaxScanTokenSize` bytes or more (`ErrTooLong`:
the full buffer holds no newline and may not grow) or when no line is left. The result
lists the tokens delivered before the first `false`. -/
def scanTokens : List Str → List Str
  | [] => []
  | raw :: rest =>
    if MaxScanTokenSize ≤ byteLen raw then [] else dropCR raw :: scanTokens rest

/-- The scanner `bufio.NewScanner(os.Stdin)`, given by the tokens its `Scan` calls deliver. -/
def NewScanner (stdin : Str) : List Str := scanTokens (splitLines stdin)

/-! ## Types and constants of chat.go -/

/-- The struct `ChatRequest`. -/
structure ChatRequest where
  MessageText : Str
deriving DecidableEq, Repr

/-- The struct `Message`. -/
structure Message where
  UUID : Str
  Text : Str
  Sent : Str
deriving DecidableEq, Repr

/-- The struct `ChatResponse`. -/
structure ChatResponse where
  SentMessage : Message
  ReplyMessage : Message
deriving DecidableEq, Repr

/-- An entry of the listing decoded by `findNomiByName`. -/
structure Nomi where
  UUID : Str
  Name : Str
deriving DecidableEq, Repr

def colorReset : Str := "\x1b[0m".toList
def colorGreen : Str := "\x1b[32m".toList
def colorBlue : Str := "\x1b[34m".toList
def colorYellow : Str := "\x1b[33m".toList
def colorCyan : Str := "\x1b[36m".toList

/-- The constant `http.StatusOK`. -/
def StatusOK : Nat := 200

/-! ## The outside world -/

/-- An `*http.Request` as far as chat.go builds it. The body is kept as the value that
`json.Marshal` encoded. -/
structure Request where
  method : Str
  url : Str
  header : List (Str × Str)
  body : Option ChatRequest
deriving DecidableEq, Repr

/-- What `client.Do` followed by decoding the body yields: a transport error, or a response
with its status code, its status line and the outcome of `json.Decoder.Decode` on its body. -/
inductive HttpResult (α : Type) where
  | error (err : Str)
  | response (StatusCode : Nat) (Status : Str) (body : Except Str α)

/-- The environment of one run of the command. -/
structure Env where
  /-- package variable `baseURL` (declared outside chat.go) -/
  baseURL : Str
  /-- package variable `apiKey` (declared outside chat.go) -/
  apiKey : Str
  /-- the constant `runtime.GOOS` -/
  GOOS : Str
  /-- the case table of `unicode.ToLower` for runes above ASCII -/
  lower : Char → Char
  /-- simple case folding of package `unicode` for runes above ASCII -/
  fold : Char → Char → Bool
  /-- the error of `url.Parse` on a URL, `none` when it parses -/
  urlError : Str → Option Str
  /-- the answer to the listing request -/
  listing : Request → HttpResult (List Nomi)
  /-- the answer to the chat request sent in loop iteration `k` -/
  chat : Nat → Request → HttpResult ChatResponse

/-! ## Events -/

/-- A deferred call. -/
inductive Deferred where
  | clearScreen
  | bodyClose
deriving DecidableEq, Repr

/-- What the foreground goroutine does, in program order. -/
inductive Event where
  /-- a write to standard output (`fmt.Print`, `fmt.Printf`, `fmt.Println`) -/
  | print (s : Str)
  /-- a call of `clearScreen()` -/
  | clearScreen
  /-- `json.Marshal(chatRequest)`: the outgoing message is encoded -/
  | marshal (v : ChatRequest)
  /-- `go spinner(stopChan)` -/
  | spinnerStart
  /-- `close(stopChan)` -/
  | spinnerStop
  /-- `client.Do(req)` is called -/
  | send (req : Request)
  /-- `client.Do(req)` has returned -/
  | recv
  /-- `resp.Body.Close()` -/
  | bodyClose
deriving DecidableEq, Repr

/-- Why `Run` returned. The Go function returns nothing; the value names the `return` or
`break` that was taken. -/
inductive Termination where
  /-- `findNomiByName` failed -/
  | ResolutionFailure
  /-- the input was the exit word -/
  | UserExit
  /-- `scanner.Scan()` returned false -/
  | EndOfInput
deriving DecidableEq, Repr

/-- The event a deferred call produces when it runs. -/
def Deferred.run : Deferred → Event
  | .clearScreen => .clearScreen
  | .bodyClose => .bodyClose

/-- What reaches the terminal. -/
inductive TermOp where
  | write (s : Str)
  | exec (name : Str) (args : List Str)
deriving DecidableEq, Repr

/-- The function `clearScreen`: on Windows the command `cmd /c cls`; elsewhere the ANSI
sequence and then `tput reset`. -/
def clearScreen (goos : Str) : List TermOp :=
  if goos = "windows".toList then
    [.exec "cmd".toList ["/c".toList, "cls".toList]]
  else
    [.write "\x1b[H\x1b[2J\x1b[3J\x1bc".toList, .exec "tput".toList ["reset".toList]]

/-- The terminal operations of the foreground goroutine for one event. -/
def Event.termOps (goos : Str) : Event → List TermOp
  | .print s => [.write s]
  | .clearScreen => NomiCli.clearScreen goos
  | _ => []

/-- The outgoing messages of a trace, in order: one for every time the loop enters the
exchange of a turn, which begins by encoding the `ChatRequest` for the line. -/
def exchangeCalls (es : List Event) : List ChatRequest :=
  es.filterMap (fun e => match e with | .marshal v => some v | _ => none)

/-- The requests of a trace that were handed to `client.Do`, in order. -/
def requestsSent (es : List Event) : List Request :=
  es.filterMap (fun e => match e with | .send req => some req | _ => none)

/-- No request is handed to `client.Do` while another one has not returned: `busy` tells
whether a call is in flight at the start of the trace. -/
def sequential : Bool → List Event → Bool
  | _, [] => true
  | busy, .send _ :: es => !busy && sequential true es
  | busy, .recv :: es => busy && sequential false es
  | busy, _ :: es => sequential busy es

/-! ## Building requests -/

/-- The call `json.Marshal(chatRequest)`. Encoding a struct with a single string field
cannot fail; the encoded body is represented by the value it encodes. -/
def jsonMarshal (v : ChatRequest) : Except Str ChatRequest := .ok v

/-- The call `http.NewRequest(method, url, body)` for the methods GET and POST: it fails
exactly when `url.Parse` rejects the URL. -/
def NewRequest (env : Env) (method url : Str) (body : Option ChatRequest) :
    Except Str Request :=
  match env.urlError url with
  | some err => .error err
  | none => .ok { method := method, url := url, header := [], body := body }

/-- The method `req.Header.Set`. -/
def Request.setHeader (req : Request) (key value : Str) : Request :=
  { req with header := req.header.filter (fun kv => kv.1 ≠ key) ++ [(key, value)] }

/-! ## findNomiByName -/

/-- The search loop of `findNomiByName` over the decoded listing. -/
def searchNomis (env : Env) (name : Str) : List Nomi → Except Str Str
  | [] => .error ("no Nomi found with the name: ".toList ++ name)
  | nomi :: rest =>
    if EqualFold env.fold nomi.Name name then .ok nomi.UUID
    else searchNomis env name rest

/-- The function `findNomiByName`: the events of the call and its result. -/
def findNomiByName (env : Env) (name : Str) : List Event × Except Str Str :=
  let url := env.baseURL ++ "/nomis".toList
  match NewRequest env "GET".toList url none with
  | .error err => ([], .error ("error creating request: ".toList ++ err))
  | .ok req0 =>
    let req := req0.setHeader "Authorization".toList ("Bearer ".toList ++ env.apiKey)
    match env.listing req with
    | .error err =>
      ([.send req, .recv], .error ("error making request: ".toList ++ err))
    | .response code status body =>
      if code ≠ StatusOK then
        ([.send req, .recv, .bodyClose], .error ("error fetching Nomis: ".toList ++ status))
      else
        match body with
        | .error err =>
          ([.send req, .recv, .bodyClose],
            .error ("error decoding response: ".toList ++ err))
        | .ok nomis => ([.send req, .recv, .bodyClose], searchNomis env name nomis)

/-! ## The session loop -/

/-- The exit word the input is compared with. -/
def exitWord : Str := "exit".toList

/-- The prompt printed at the top of every loop iteration. -/
def prompt : Event := .print (colorGreen ++ "You".toList ++ colorReset ++ ": ".toList)

/-- The farewell line. -/
def farewell : Event := .print "Chat session ended.\n".toList

/-- The line a reply is rendered as. -/
def replyLine (name text : Str) : Str :=
  colorBlue ++ name ++ colorReset ++ ": ".toList ++ text ++ "\n".toList

/-- One iteration of the `for` loop. -/
structure Iteration where
  /-- what the iteration did -/
  events : List Event
  /-- the calls it deferred -/
  defers : List Deferred
  /-- `some r` when the iteration left the loop by `break`, `none` when the loop goes on -/
  exit : Option Termination

/-- The body of the `for` loop of `chatCmd.Run`, for the `k`-th iteration; `scan` is `none`
when `scanner.Scan()` returned false and `some input` when it delivered `input`. -/
def iteration (env : Env) (name url : Str) (k : Nat) (scan : Option Str) : Iteration :=
  match scan with
  | none => ⟨[prompt], [], some .EndOfInput⟩
  | some input =>
    if ToLower env.lower (TrimSpace input) = exitWord then
      ⟨[prompt, farewell], [], some .UserExit⟩
    else
      let chatRequest : ChatRequest := { MessageText := input }
      match jsonMarshal chatRequest with
      | .error err =>
        ⟨[prompt, .marshal chatRequest,
            .print ("Error encoding request body: ".toList ++ err ++ "\n".toList)],
          [], none⟩
      | .ok requestBody =>
        match NewRequest env "POST".toList url (some requestBody) with
        | .error err =>
          ⟨[prompt, .marshal chatRequest,
              .print ("Error creating request: ".toList ++ err ++ "\n".toList)],
            [], none⟩
        | .ok req0 =>
          let req := (req0.setHeader "Authorization".toList
            ("Bearer ".toList ++ env.apiKey)).setHeader
            "Content-Type".toList "application/json".toList
          let waited : List Event :=
            [prompt, .marshal chatRequest, .spinnerStart, .send req, .recv, .spinnerStop,
              .print "\r".toList]
          match env.chat k req with
          | .error err =>
            ⟨waited ++ [.print ("Error sending message: ".toList ++ err ++ "\n".toList)],
              [], none⟩
          | .response code status body =>
            if code ≠ StatusOK then
              ⟨waited ++ [.print ("Error: ".toList ++ status ++ "\n".toList)],
                [.bodyClose], none⟩
            else
              match body with
              | .error err =>
                ⟨waited ++
                  [.print ("Error decoding response: ".toList ++ err ++ "\n".toList)],
                  [.bodyClose], none⟩
              | .ok chatResponse =>
                ⟨waited ++ [.print (replyLine name chatResponse.ReplyMessage.Text)],
                  [.bodyClose], none⟩

/-- The outcome of the loop. -/
structure LoopResult where
  /-- the events of all iterations -/
  events : List Event
  /-- the defer stack, most recent call first -/
  defers : List Deferred
  /-- which `break` ended the loop -/
  reason : Termination

/-- The `for` loop of `chatCmd.Run` over the tokens the scanner delivers, starting with
iteration number `k`. -/
def chatLoop (env : Env) (name url : Str) : List Str → Nat → LoopResult
  | [], k => ⟨(iteration env name url k none).events, [], .EndOfInput⟩
  | input :: rest, k =>
    let it := iteration env name url k (some input)
    match it.exit with
    | some reason => ⟨it.events, it.defers, reason⟩
    | none =>
      let r := chatLoop env name url rest (k + 1)
      ⟨it.events ++ r.events, r.defers ++ it.defers, r.reason⟩

/-- The three banner lines printed before the first prompt. -/
def banner (name : Str) : List Event :=
  [.print ("\n".toList ++ colorYellow ++ "=== Chat Session with ".toList ++ name ++
      " ===".toList ++ colorReset ++ "\n".toList),
   .print (colorBlue ++ "• Type your message and press Enter to send\n".toList),
   .print ("• Type 'exit' to end the session".toList ++ colorReset ++ "\n\n".toList)]

/-- The outcome of one run of the command. -/
structure RunResult where
  /-- the events up to the `return` -/
  body : List Event
  /-- the defer stack at the `return`, most recent call first -/
  defers : List Deferred
  /-- why the function returned -/
  reason : Termination

/-- The function `chatCmd.Run` with `args = [name]` (cobra.ExactArgs(1)). -/
def chatCmd.Run (env : Env) (name : Str) (stdin : Str) : RunResult :=
  let found := findNomiByName env name
  match found.2 with
  | .error err =>
    ⟨found.1 ++ [.print (err ++ "\n".toList)], [.clearScreen], .ResolutionFailure⟩
  | .ok nomiID =>
    let url := env.baseURL ++ "/nomis/".toList ++ nomiID ++ "/chat".toList
    let loop := chatLoop env name url (NewScanner stdin) 0
    ⟨found.1 ++ [.clearScreen] ++ banner name ++ loop.events,
      loop.defers ++ [.clearScreen], loop.reason⟩

/-- Everything a run does: the body, then the deferred calls, most recent first. -/
def RunResult.trace (r : RunResult) : List Event := r.body ++ r.defers.map Deferred.run

/-! ## Vocabulary of the statements -/

/-- The chat request the loop hands to `client.Do` for an input line: a POST to `url` with
the two headers set and the line as message text. -/
def chatRequestFor (env : Env) (url input : Str) : Request :=
  { method := "POST".toList, url := url,
    header := [("Authorization".toList, "Bearer ".toList ++ env.apiKey),
      ("Content-Type".toList, "application/json".toList)],
    body := some { MessageText := input } }

/-- The events of an iteration that sends `req` for `input` and prints `line` for the
outcome. -/
def turnEvents (input : Str) (req : Request) (line : Str) : List Event :=
  [prompt, .marshal { MessageText := input }, .spinnerStart, .send req, .recv, .spinnerStop,
    .print "\r".toList, .print line]

/-- The lines in front of the first line that is the exit word. -/
def dispatched (env : Env) (tokens : List Str) : List Str :=
  tokens.takeWhile (fun l => decide (ToLower env.lower (TrimSpace l) ≠ exitWord))

/-- The events of the iterations that handle the lines `ls`, the first one numbered `k`. -/
def turnsOf (env : Env) (name url : Str) : List Str → Nat → List Event
  | [], _ => []
  | l :: ls, k => (iteration env name url k (some l)).events ++ turnsOf env name url ls (k + 1)

/-- The protocol of the progress indicator as the foreground goroutine sees it. -/
inductive Phase where
  /-- no indicator is running -/
  | idle
  /-- the indicator was started, the request is not sent yet -/
  | started
  /-- the request is sent, `client.Do` has not returned -/
  | inFlight
  /-- `client.Do` has returned, the indicator is not stopped yet -/
  | returned
deriving DecidableEq, Repr

/-- One event of the protocol: start, send, return and stop follow each other in this
order, and the foreground goroutine prints, encodes, clears the screen and closes bodies
only while no indicator is running. -/
def Phase.step : Phase → Event → Option Phase
  | .idle, .spinnerStart => some .started
  | .started, .send _ => some .inFlight
  | .inFlight, .recv => some .returned
  | .returned, .spinnerStop => some .idle
  | .idle, .print _ => some .idle
  | .idle, .marshal _ => some .idle
  | .idle, .clearScreen => some .idle
  | .idle, .bodyClose => some .idle
  | _, _ => none

/-- The protocol run over a trace; `none` when an event comes out of order. -/
def Phase.run : Phase → List Event → Option Phase
  | p, [] => some p
  | p, e :: es =>
    match p.step e with
    | some q => q.run es
    | none => none

/-- An environment for the examples: the listing holds `Ada` and `Bob`, the first chat
request is answered with the reply `hello`, the second with status 500, the third fails in
transport, the fourth has a body that does not decode, every later one replies with empty
text. -/
def demoEnv : Env where
  baseURL := "https://api.nomi.ai/v1".toList
  apiKey := "secret".toList
  GOOS := "linux".toList
  lower := id
  fold := fun _ _ => false
  urlError := fun _ => none
  listing := fun _ =>
    .response 200 "200 OK".toList
      (.ok [⟨"u-1".toList, "Ada".toList⟩, ⟨"u-2".toList, "Bob".toList⟩])
  chat := fun k _ =>
    if k = 0 then .response 200 "200 OK".toList (.ok ⟨⟨[], [], []⟩, ⟨[], "hello".toList, []⟩⟩)
    else if k = 1 then .response 500 "500 Internal Server Error".toList (.error [])
    else if k = 2 then .error "connection refused".toList
    else if k = 3 then .response 200 "200 OK".toList (.error "unexpected EOF".toList)
    else .response 200 "200 OK".toList (.ok ⟨⟨[], [], []⟩, ⟨[], [], []⟩⟩)

/-- The listing request `findNomiByName` hands to `client.Do`: a GET with the
authorization header and no body. -/
def listRequestFor (env : Env) : Request :=
  { method := "GET".toList, url := env.baseURL ++ "/nomis".toList,
    header := [("Authorization".toList, "Bearer ".toList ++ env.apiKey)],
    body := none }

/-! ## The spinner goroutine next to the foreground goroutine

One dispatched turn, from `go spinner(stopChan)` on, as two sequential programs whose steps
interleave in any order. A step is one statement: a `select`, a write, the return of
`client.Do`, the `close`. A `select` with a `default` branch takes the receive when the
channel is closed and the default otherwise; nothing is ever sent on `stopChan`. -/

/-- The local variable `chars` of `spinner`. -/
def spinnerChars : List Str := ["-".toList, "\\".toList, "|".toList, "/".toList]

/-- What `spinner` writes for one character: `fmt.Printf("\r%s%s%s", colorCyan, char,
colorReset)`. -/
def glyphWrite (char : Str) : Str := "\r".toList ++ colorCyan ++ char ++ colorReset

/-- Where the spinner goroutine stands in `spinner`. -/
inductive SpinnerPc where
  /-- at the outer `select` -/
  | outerSelect
  /-- at the inner `select`, for `chars[i]` -/
  | innerSelect (i : Nat)
  /-- the `default` branch of the inner `select` was taken, the `Printf` comes next -/
  | printing (i : Nat)
  /-- `chars[i]` is written, in `time.Sleep` -/
  | sleeping (i : Nat)
  /-- the goroutine has returned -/
  | returned
deriving DecidableEq, Repr

/-- Where the foreground goroutine stands in the turn. -/
inductive MainPc where
  /-- in `client.Do(req)` -/
  | waiting
  /-- `client.Do` has returned, `close(stopChan)` comes next -/
  | closing
  /-- `close(stopChan)` has returned, `fmt.Print("\r")` comes next -/
  | clearing
  /-- the error line or reply line of the turn comes next -/
  | rendering
  /-- the line of the turn is written -/
  | done
deriving DecidableEq, Repr

/-- What the two goroutines do that the other one or the terminal can see. -/
inductive TurnEvent where
  /-- the spinner goroutine writes to standard output -/
  | spinnerWrite (s : Str)
  /-- the foreground goroutine closes `stopChan`: the stop of the indicator -/
  | stop
  /-- the foreground goroutine writes to standard output -/
  | mainWrite (s : Str)
deriving DecidableEq, Repr

/-- The state of a turn. -/
structure TurnState where
  main : MainPc
  spin : SpinnerPc
  /-- whether `stopChan` is closed -/
  closed : Bool
  /-- what has happened so far, oldest first -/
  trace : List TurnEvent
deriving DecidableEq, Repr

/-- The state right after `go spinner(stopChan)`. -/
def TurnState.init : TurnState :=
  { main := .waiting, spin := .outerSelect, closed := false, trace := [] }

/-- One step of the spinner goroutine; `none` when it has returned. -/
def spinnerStep (s : TurnState) : Option TurnState :=
  match s.spin with
  | .outerSelect =>
    if s.closed then some { s with spin := .returned }
    else some { s with spin := .innerSelect 0 }
  | .innerSelect i =>
    if s.closed then some { s with spin := .returned }
    else some { s with spin := .printing i }
  | .printing i =>
    some { s with
      spin := .sleeping i
      trace := s.trace ++ [.spinnerWrite (glyphWrite (spinnerChars.getD i []))] }
  | .sleeping i =>
    if i + 1 < spinnerChars.length then some { s with spin := .innerSelect (i + 1) }
    else some { s with spin := .outerSelect }
  | .returned => none

/-- One step of the foreground goroutine, `line` being the line it prints for the outcome
of the turn; `none` when the line is written. -/
def mainStep (line : Str) (s : TurnState) : Option TurnState :=
  match s.main with
  | .waiting => some { s with main := .closing }
  | .closing => some { s with main := .clearing, closed := true, trace := s.trace ++ [.stop] }
  | .clearing =>
    some { s with main := .rendering, trace := s.trace ++ [.mainWrite "\r".toList] }
  | .rendering => some { s with main := .done, trace := s.trace ++ [.mainWrite line] }
  | .done => none

/-- Which goroutine runs next. -/
inductive Turn where
  | foreground
  | spinner
deriving DecidableEq, Repr

/-- The turn run under a schedule; a goroutine that has finished stays where it is. -/
def runSchedule (line : Str) : List Turn → TurnState → TurnState
  | [], s => s
  | .foreground :: rest, s => runSchedule line rest ((mainStep line s).getD s)
  | .spinner :: rest, s => runSchedule line rest ((spinnerStep s).getD s)

/-- No write of the spinner goroutine comes after the stop. -/
def quietAfterStop : List TurnEvent → Bool
  | [] => true
  | .stop :: rest => rest.all (fun e => match e with | .spinnerWrite _ => false | _ => true)
  | _ :: rest => quietAfterStop rest

/-- An input whose first line has 65536 bytes, followed by the line `hello`. -/
def longInput : Str := List.replicate 65536 'a' ++ '\n' :: "hello\n".toList

/-! ## One iteration -/

theorem iteration_none (env : Env) (name url : Str) (k : Nat) :
    iteration env name url k none = ⟨[prompt], [], some .EndOfInput⟩ := rfl

theorem iteration_sentinel (env : Env) (name url : Str) (k : Nat) (input : Str)
    (h : ToLower env.lower (TrimSpace input) = exitWord) :
    iteration env name url k (some input) = ⟨[prompt, farewell], [], some .UserExit⟩ := by
  simp [iteration, h]

theorem iteration_unbuilt (env : Env) (name url : Str) (k : Nat) (input err : Str)
    (h : ToLower env.lower (TrimSpace input) ≠ exitWord)
    (hurl : env.urlError url = some err) :
    iteration env name url k (some input) =
      ⟨[prompt, .marshal { MessageText := input },
        .print ("Error creating request: ".toList ++ err ++ "\n".toList)], [], none⟩ := by
  simp [iteration, h, jsonMarshal, NewRequest, hurl]

theorem setHeader_chat (env : Env) (url input : Str) :
    ((Request.mk "POST".toList url [] (some { MessageText := input })).setHeader
      "Authorization".toList ("Bearer ".toList ++ env.apiKey)).setHeader
      "Content-Type".toList "application/json".toList = chatRequestFor env url input := by
  simp [Request.setHeader, chatRequestFor]

theorem iteration_transport (env : Env) (name url : Str) (k : Nat) (input err : Str)
    (h : ToLower env.lower (TrimSpace input) ≠ exitWord)
    (hurl : env.urlError url = none)
    (hc : env.chat k (chatRequestFor env url input) = .error err) :
    iteration env name url k (some input) =
      ⟨turnEvents input (chatRequestFor env url input)
        ("Error sending message: ".toList ++ err ++ "\n".toList), [], none⟩ := by
  simp only [iteration, h, jsonMarshal, NewRequest, hurl, if_false, setHeader_chat, hc]
  rfl

theorem iteration_status (env : Env) (name url : Str) (k : Nat) (input status : Str)
    (code : Nat) (body : Except Str ChatResponse)
    (h : ToLower env.lower (TrimSpace input) ≠ exitWord)
    (hurl : env.urlError url = none)
    (hc : env.chat k (chatRequestFor env url input) = .response code status body)
    (hcode : code ≠ StatusOK) :
    iteration env name url k (some input) =
      ⟨turnEvents input (chatRequestFor env url input)
        ("Error: ".toList ++ status ++ "\n".toList), [.bodyClose], none⟩ := by
  simp only [iteration, h, jsonMarshal, NewRequest, hurl, if_false, setHeader_chat, hc]
  rw [if_pos hcode]
  rfl

theorem iteration_malformed (env : Env) (name url : Str) (k : Nat) (input status err : Str)
    (h : ToLower env.lower (TrimSpace input) ≠ exitWord)
    (hurl : env.urlError url = none)
    (hc : env.chat k (chatRequestFor env url input) =
      .response StatusOK status (.error err)) :
    iteration env name url k (some input) =
      ⟨turnEvents input (chatRequestFor env url input)
        ("Error decoding response: ".toList ++ err ++ "\n".toList), [.bodyClose], none⟩ := by
  simp only [iteration, h, jsonMarshal, NewRequest, hurl, if_false, setHeader_chat, hc]
  rfl

theorem iteration_reply (env : Env) (name url : Str) (k : Nat) (input status : Str)
    (r : ChatResponse)
    (h : ToLower env.lower (TrimSpace input) ≠ exitWord)
    (hurl : env.urlError url = none)
    (hc : env.chat k (chatRequestFor env url input) = .response StatusOK status (.ok r)) :
    iteration env name url k (some input) =
      ⟨turnEvents input (chatRequestFor env url input) (replyLine name r.ReplyMessage.Text),
        [.bodyClose], none⟩ := by
  simp only [iteration, h, jsonMarshal, NewRequest, hurl, if_false, setHeader_chat, hc]
  rfl

/-- A line that is not the exit word and whose request is built: the iteration sends one
request and prints one line for the outcome. -/
theorem iteration_built (env : Env) (name url : Str) (k : Nat) (input : Str)
    (h : ToLower env.lower (TrimSpace input) ≠ exitWord)
    (hurl : env.urlError url = none) :
    ∃ line ds, iteration env name url k (some input) =
      ⟨turnEvents input (chatRequestFor env url input) line, ds, none⟩ ∧
      (∀ d ∈ ds, d = Deferred.bodyClose) := by
  cases hc : env.chat k (chatRequestFor env url input) with
  | error err => exact ⟨_, _, iteration_transport env name url k input err h hurl hc, by simp⟩
  | response code status body =>
    by_cases h200 : code = StatusOK
    · subst h200
      cases body with
      | error err =>
        exact ⟨_, _, iteration_malformed env name url k input status err h hurl hc, by simp⟩
      | ok r => exact ⟨_, _, iteration_reply env name url k input status r h hurl hc, by simp⟩
    · exact ⟨_, _, iteration_status env name url k input status code body h hurl hc h200,
        by simp⟩

/-- The shapes an iteration on a line that is not the exit word can take. -/
theorem iteration_shape (env : Env) (name url : Str) (k : Nat) (input : Str)
    (h : ToLower env.lower (TrimSpace input) ≠ exitWord) :
    (∃ line, env.urlError url ≠ none ∧ iteration env name url k (some input) =
      ⟨[prompt, .marshal { MessageText := input }, .print line], [], none⟩) ∨
    (∃ line ds, env.urlError url = none ∧ iteration env name url k (some input) =
      ⟨turnEvents input (chatRequestFor env url input) line, ds, none⟩ ∧
      (∀ d ∈ ds, d = Deferred.bodyClose)) := by
  cases hurl : env.urlError url with
  | some err => exact Or.inl ⟨_, by simp, iteration_unbuilt env name url k input err h hurl⟩
  | none =>
    obtain ⟨line, ds, hit, hds⟩ := iteration_built env name url k input h hurl
    exact Or.inr ⟨line, ds, rfl, hit, hds⟩

theorem iteration_exit_none (env : Env) (name url : Str) (k : Nat) (input : Str)
    (h : ToLower env.lower (TrimSpace input) ≠ exitWord) :
    (iteration env name url k (some input)).exit = none := by
  rcases iteration_shape env name url k input h with ⟨_, _, hit⟩ | ⟨_, _, _, hit, _⟩ <;>
    rw [hit]

/-! ## The loop -/

theorem chatLoop_nil (env : Env) (name url : Str) (k : Nat) :
    chatLoop env name url [] k = ⟨[prompt], [], .EndOfInput⟩ := rfl

theorem chatLoop_sentinel (env : Env) (name url : Str) (k : Nat) (input : Str)
    (rest : List Str) (h : ToLower env.lower (TrimSpace input) = exitWord) :
    chatLoop env name url (input :: rest) k = ⟨[prompt, farewell], [], .UserExit⟩ := by
  simp [chatLoop, iteration_sentinel env name url k input h]

theorem chatLoop_continue (env : Env) (name url : Str) (k : Nat) (input : Str)
    (rest : List Str) (h : ToLower env.lower (TrimSpace input) ≠ exitWord) :
    chatLoop env name url (input :: rest) k =
      ⟨(iteration env name url k (some input)).events ++
          (chatLoop env name url rest (k + 1)).events,
        (chatLoop env name url rest (k + 1)).defers ++
          (iteration env name url k (some input)).defers,
        (chatLoop env name url rest (k + 1)).reason⟩ := by
  simp [chatLoop, iteration_exit_none env name url k input h]

/-- Every pass through the loop starts by printing the prompt. -/
theorem chatLoop_head (env : Env) (name url : Str) (tokens : List Str) (k : Nat) :
    (chatLoop env name url tokens k).events.head? = some prompt := by
  cases tokens with
  | nil => rfl
  | cons input rest =>
    by_cases h : ToLower env.lower (TrimSpace input) = exitWord
    · rw [chatLoop_sentinel env name url k input rest h]; rfl
    · rw [chatLoop_continue env name url k input rest h]
      rcases iteration_shape env name url k input h with ⟨_, _, hit⟩ | ⟨_, _, _, hit, _⟩ <;>
        rw [hit] <;> rfl

/-! ## Projections of a trace -/

theorem print_ne_farewell (s : Str) (c : Char) (hs : s.head? = some c) (hc : c ≠ 'C') :
    Event.print s ≠ farewell := by
  intro h
  have h2 : s = "Chat session ended.\n".toList := by
    simpa [farewell] using h
  rw [h2] at hs
  simp at hs
  exact hc hs.symm

theorem exchangeCalls_append (a b : List Event) :
    exchangeCalls (a ++ b) = exchangeCalls a ++ exchangeCalls b := by
  simp [exchangeCalls]

theorem requestsSent_append (a b : List Event) :
    requestsSent (a ++ b) = requestsSent a ++ requestsSent b := by
  simp [requestsSent]

theorem exchangeCalls_iteration (env : Env) (name url : Str) (k : Nat) (input : Str)
    (h : ToLower env.lower (TrimSpace input) ≠ exitWord) :
    exchangeCalls (iteration env name url k (some input)).events = [⟨input⟩] := by
  rcases iteration_shape env name url k input h with ⟨_, _, hit⟩ | ⟨_, _, _, hit, _⟩ <;>
    rw [hit] <;> simp [exchangeCalls, turnEvents, prompt]

theorem requestsSent_iteration (env : Env) (name url : Str) (k : Nat) (input : Str)
    (h : ToLower env.lower (TrimSpace input) ≠ exitWord) (hurl : env.urlError url = none) :
    requestsSent (iteration env name url k (some input)).events =
      [chatRequestFor env url input] := by
  obtain ⟨line, ds, hit, -⟩ := iteration_built env name url k input h hurl
  rw [hit]; simp [requestsSent, turnEvents, prompt]

theorem requestsSent_unbuilt (env : Env) (name url : Str) (k : Nat) (input : Str)
    (h : ToLower env.lower (TrimSpace input) ≠ exitWord) (hurl : env.urlError url ≠ none) :
    requestsSent (iteration env name url k (some input)).events = [] := by
  rcases iteration_shape env name url k input h with ⟨_, _, hit⟩ | ⟨_, _, h0, _, _⟩
  · rw [hit]; simp [requestsSent, prompt]
  · exact absurd h0 hurl

theorem sequential_iteration (env : Env) (name url : Str) (k : Nat) (scan : Option Str)
    (rest : List Event) :
    sequential false ((iteration env name url k scan).events ++ rest) =
      sequential false rest := by
  cases scan with
  | none => simp [iteration_none, sequential, prompt]
  | some input =>
    by_cases h : ToLower env.lower (TrimSpace input) = exitWord
    · simp [iteration_sentinel env name url k input h, sequential, prompt, farewell]
    · rcases iteration_shape env name url k input h with ⟨_, _, hit⟩ | ⟨_, _, _, hit, _⟩ <;>
        rw [hit] <;> simp [sequential, turnEvents, prompt]

theorem phase_iteration (env : Env) (name url : Str) (k : Nat) (scan : Option Str)
    (rest : List Event) :
    Phase.run .idle ((iteration env name url k scan).events ++ rest) =
      Phase.run .idle rest := by
  cases scan with
  | none => simp [iteration_none, Phase.run, Phase.step, prompt]
  | some input =>
    by_cases h : ToLower env.lower (TrimSpace input) = exitWord
    · simp [iteration_sentinel env name url k input h, Phase.run, Phase.step, prompt, farewell]
    · rcases iteration_shape env name url k input h with ⟨_, _, hit⟩ | ⟨_, _, _, hit, _⟩ <;>
        rw [hit] <;> simp [Phase.run, Phase.step, turnEvents, prompt]

theorem dispatched_cons_sentinel (env : Env) (input : Str) (rest : List Str)
    (h : ToLower env.lower (TrimSpace input) = exitWord) :
    dispatched env (input :: rest) = [] := by
  simp [dispatched, h]

theorem dispatched_cons_other (env : Env) (input : Str) (rest : List Str)
    (h : ToLower env.lower (TrimSpace input) ≠ exitWord) :
    dispatched env (input :: rest) = input :: dispatched env rest := by
  simp [dispatched, h]

theorem dispatched_all (env : Env) (tokens : List Str)
    (h : ∀ l ∈ tokens, ToLower env.lower (TrimSpace l) ≠ exitWord) :
    dispatched env tokens = tokens := by
  induction tokens with
  | nil => rfl
  | cons a t ih =>
    rw [dispatched_cons_other env a t (h a (by simp)), ih (fun l hl => h l (by simp [hl]))]

/-- The trace of the loop: the iterations of the dispatched lines, then the iteration that
ends the loop, on the exit word or on the end of the input. -/
theorem chatLoop_events (env : Env) (name url : Str) (tokens : List Str) (k : Nat) :
    (chatLoop env name url tokens k).events =
      turnsOf env name url (dispatched env tokens) k ++
        (iteration env name url (k + (dispatched env tokens).length)
          (tokens[(dispatched env tokens).length]?)).events := by
  induction tokens generalizing k with
  | nil => rfl
  | cons input rest ih =>
    by_cases h : ToLower env.lower (TrimSpace input) = exitWord
    · rw [chatLoop_sentinel env name url k input rest h,
        dispatched_cons_sentinel env input rest h]
      simp [turnsOf, iteration_sentinel env name url k input h]
    · rw [chatLoop_continue env name url k input rest h,
        dispatched_cons_other env input rest h]
      simp [turnsOf, ih (k + 1), Nat.add_assoc, Nat.add_comm 1]

theorem exchangeCalls_turnsOf (env : Env) (name url : Str) (ls : List Str) (k : Nat)
    (h : ∀ l ∈ ls, ToLower env.lower (TrimSpace l) ≠ exitWord) :
    exchangeCalls (turnsOf env name url ls k) = ls.map ChatRequest.mk := by
  induction ls generalizing k with
  | nil => rfl
  | cons a t ih =>
    simp [turnsOf, exchangeCalls_append,
      exchangeCalls_iteration env name url k a (h a (by simp)),
      ih (k + 1) (fun l hl => h l (by simp [hl]))]

theorem requestsSent_turnsOf (env : Env) (name url : Str) (ls : List Str) (k : Nat)
    (h : ∀ l ∈ ls, ToLower env.lower (TrimSpace l) ≠ exitWord)
    (hurl : env.urlError url = none) :
    requestsSent (turnsOf env name url ls k) = ls.map (chatRequestFor env url) := by
  induction ls generalizing k with
  | nil => rfl
  | cons a t ih =>
    simp [turnsOf, requestsSent_append,
      requestsSent_iteration env name url k a (h a (by simp)) hurl,
      ih (k + 1) (fun l hl => h l (by simp [hl]))]

theorem dispatched_ne (env : Env) (tokens : List Str) :
    ∀ l ∈ dispatched env tokens, ToLower env.lower (TrimSpace l) ≠ exitWord := by
  intro l hl
  have := List.mem_takeWhile_imp hl
  simpa using this

/-- The iteration that ends the loop hands nothing to the exchange. -/
theorem closing_iteration (env : Env) (name url : Str) (tokens : List Str) (k : Nat) :
    (iteration env name url k (tokens[(dispatched env tokens).length]?)) =
        ⟨[prompt], [], some .EndOfInput⟩ ∨
      (iteration env name url k (tokens[(dispatched env tokens).length]?)) =
        ⟨[prompt, farewell], [], some .UserExit⟩ := by
  induction tokens with
  | nil => left; rfl
  | cons input rest ih =>
    by_cases h : ToLower env.lower (TrimSpace input) = exitWord
    · right
      rw [dispatched_cons_sentinel env input rest h]
      simpa using iteration_sentinel env name url k input h
    · rw [dispatched_cons_other env input rest h]
      simpa using ih

/-! ## The exit word (C1) -/

/-- C1. For every line the scanner delivers, the loop ends on that line without handing
anything to the exchange if and only if the line, trimmed and lower-cased, is `exit`: on
such a line the loop prints the prompt and the farewell and stops, whatever follows; on
any other line it hands the line to the exchange and goes on with the next iteration.
`exit`, `EXIT` and `  Exit  ` are exit words; `exit now` is not, and its iteration carries
the message `exit now`. -/
theorem exit_word_ends_session (env : Env) (name url : Str) (k : Nat) (input : Str)
    (rest : List Str) :
    (((iteration env name url k (some input)).exit ≠ none ∧
        exchangeCalls (iteration env name url k (some input)).events = [] ∧
        requestsSent (iteration env name url k (some input)).events = []) ↔
      ToLower env.lower (TrimSpace input) = exitWord) ∧
    (ToLower env.lower (TrimSpace input) = exitWord →
      chatLoop env name url (input :: rest) k = ⟨[prompt, farewell], [], .UserExit⟩) ∧
    (ToLower env.lower (TrimSpace input) ≠ exitWord →
      (iteration env name url k (some input)).exit = none ∧
      exchangeCalls (iteration env name url k (some input)).events = [⟨input⟩] ∧
      (chatLoop env name url (input :: rest) k).events =
        (iteration env name url k (some input)).events ++
          (chatLoop env name url rest (k + 1)).events) ∧
    ToLower env.lower (TrimSpace "exit".toList) = exitWord ∧
    ToLower env.lower (TrimSpace "EXIT".toList) = exitWord ∧
    ToLower env.lower (TrimSpace "  Exit  ".toList) = exitWord ∧
    ToLower env.lower (TrimSpace "exit now".toList) ≠ exitWord ∧
    exchangeCalls (iteration env name url k (some "exit now".toList)).events =
      [⟨"exit now".toList⟩] := by
  have hnow : ToLower env.lower (TrimSpace "exit now".toList) ≠ exitWord := by
    show ToLower id (TrimSpace "exit now".toList) ≠ exitWord
    decide
  refine ⟨⟨?_, ?_⟩, ?_, ?_, by rfl, by rfl, by rfl, hnow, ?_⟩
  · rintro ⟨hexit, -, -⟩
    by_contra h
    exact hexit (iteration_exit_none env name url k input h)
  · intro h
    rw [iteration_sentinel env name url k input h]
    simp [exchangeCalls, requestsSent, prompt, farewell]
  · exact chatLoop_sentinel env name url k input rest
  · intro h
    refine ⟨iteration_exit_none env name url k input h,
      exchangeCalls_iteration env name url k input h, ?_⟩
    rw [chatLoop_continue env name url k input rest h]
  · exact exchangeCalls_iteration env name url k _ hnow

/-- C1, at `Exit` between blanks followed by more input, and at `exit now`. -/
theorem exit_word_ends_session_witness :
    chatLoop demoEnv "Ada".toList "u".toList ["  Exit  ".toList, "more".toList] 0 =
        ⟨[prompt, farewell], [], .UserExit⟩ ∧
      requestsSent (iteration demoEnv "Ada".toList "u".toList 0
        (some "exit now".toList)).events =
        [chatRequestFor demoEnv "u".toList "exit now".toList] :=
  ⟨(exit_word_ends_session demoEnv "Ada".toList "u".toList 0 "  Exit  ".toList
      ["more".toList]).2.1 (by rfl),
    requestsSent_iteration demoEnv "Ada".toList "u".toList 0 "exit now".toList
      (by decide) (by rfl)⟩

/-! ## One exchange for each line (C2) -/

theorem requestsSent_turnsOf_unbuilt (env : Env) (name url : Str) (ls : List Str) (k : Nat)
    (h : ∀ l ∈ ls, ToLower env.lower (TrimSpace l) ≠ exitWord)
    (hurl : env.urlError url ≠ none) :
    requestsSent (turnsOf env name url ls k) = [] := by
  induction ls generalizing k with
  | nil => rfl
  | cons a t ih =>
    simp [turnsOf, requestsSent_append,
      requestsSent_unbuilt env name url k a (h a (by simp)) hurl,
      ih (k + 1) (fun l hl => h l (by simp [hl]))]

theorem sequential_turnsOf (env : Env) (name url : Str) (ls : List Str) (k : Nat)
    (rest : List Event) :
    sequential false (turnsOf env name url ls k ++ rest) = sequential false rest := by
  induction ls generalizing k with
  | nil => rfl
  | cons a t ih =>
    simp only [turnsOf, List.append_assoc]
    rw [sequential_iteration, ih]

/-- C2. For every sequence of lines the scanner delivers, the loop enters the exchange
once for each line in front of the first exit word (or the end of the input), in input
order, and the message of the k-th exchange is the k-th such line as delivered, untrimmed,
so that empty and blank lines are carried as they are. The trace is the iterations of
these lines followed by the iteration that ends the loop. When `http.NewRequest` accepts
the chat URL, the requests handed to `client.Do` are those for these lines, one each and
in order; when it does not, none is. No request is handed over while another is in
flight. -/
theorem one_exchange_per_line (env : Env) (name url : Str) (tokens : List Str) (k : Nat) :
    (chatLoop env name url tokens k).events =
      turnsOf env name url (dispatched env tokens) k ++
        (iteration env name url (k + (dispatched env tokens).length)
          (tokens[(dispatched env tokens).length]?)).events ∧
    exchangeCalls (chatLoop env name url tokens k).events =
      (dispatched env tokens).map ChatRequest.mk ∧
    (env.urlError url = none →
      requestsSent (chatLoop env name url tokens k).events =
        (dispatched env tokens).map (chatRequestFor env url)) ∧
    (requestsSent (chatLoop env name url tokens k).events).length ≤
      (dispatched env tokens).length ∧
    sequential false (chatLoop env name url tokens k).events = true ∧
    dispatched env ["".toList, "  ".toList, " hi ".toList] =
      ["".toList, "  ".toList, " hi ".toList] := by
  have hclose := closing_iteration env name url tokens (k + (dispatched env tokens).length)
  refine ⟨chatLoop_events env name url tokens k, ?_, ?_, ?_, ?_, ?_⟩
  · rw [chatLoop_events, exchangeCalls_append,
      exchangeCalls_turnsOf env name url _ k (dispatched_ne env tokens)]
    rcases hclose with h | h <;> rw [h] <;> simp [exchangeCalls, prompt, farewell]
  · intro hurl
    rw [chatLoop_events, requestsSent_append,
      requestsSent_turnsOf env name url _ k (dispatched_ne env tokens) hurl]
    rcases hclose with h | h <;> rw [h] <;> simp [requestsSent, prompt, farewell]
  · rw [chatLoop_events, requestsSent_append]
    have hlast : requestsSent (iteration env name url (k + (dispatched env tokens).length)
        (tokens[(dispatched env tokens).length]?)).events = [] := by
      rcases hclose with h | h <;> rw [h] <;> simp [requestsSent, prompt, farewell]
    rw [hlast]
    cases hurl : env.urlError url with
    | none =>
      rw [requestsSent_turnsOf env name url _ k (dispatched_ne env tokens) hurl]
      simp
    | some err =>
      rw [requestsSent_turnsOf_unbuilt env name url _ k (dispatched_ne env tokens)
        (by simp [hurl])]
      simp
  · rw [chatLoop_events, sequential_turnsOf]
    have := sequential_iteration env name url (k + (dispatched env tokens).length)
      (tokens[(dispatched env tokens).length]?) []
    simpa [sequential] using this
  · rfl

/-- C2, at two lines in front of an exit word: the blank line is sent as it is, the line
after the exit word is not. -/
theorem one_exchange_per_line_witness :
    requestsSent (chatLoop demoEnv "Ada".toList "u".toList
        ["hi".toList, "  ".toList, "exit".toList, "late".toList] 0).events =
      [chatRequestFor demoEnv "u".toList "hi".toList,
        chatRequestFor demoEnv "u".toList "  ".toList] :=
  (one_exchange_per_line demoEnv "Ada".toList "u".toList
    ["hi".toList, "  ".toList, "exit".toList, "late".toList] 0).2.2.1 (by rfl)

/-! ## End of input (C5) -/

theorem prompt_ne_farewell : prompt ≠ farewell := by decide

theorem farewell_not_mem_iteration (env : Env) (name url : Str) (k : Nat) (input : Str)
    (h : ToLower env.lower (TrimSpace input) ≠ exitWord) :
    farewell ∉ (iteration env name url k (some input)).events := by
  have hE : ('E' : Char) ≠ 'C' := by decide
  cases hurl : env.urlError url with
  | some err =>
    rw [iteration_unbuilt env name url k input err h hurl]
    simp only [List.mem_cons, List.mem_singleton, not_or, List.not_mem_nil, or_false]
    exact ⟨prompt_ne_farewell.symm, by simp [farewell],
      (print_ne_farewell ("Error creating request: ".toList ++ err ++ "\n".toList) 'E' rfl
        hE).symm⟩
  | none =>
    have key : ∀ line : Str, Event.print line ≠ farewell →
        farewell ∉ turnEvents input (chatRequestFor env url input) line := by
      intro line hl
      simp only [turnEvents, List.mem_cons, List.mem_singleton, not_or, List.not_mem_nil,
        or_false]
      refine ⟨prompt_ne_farewell.symm, ?_, ?_, ?_, ?_, ?_, ?_, hl.symm⟩ <;>
        simp [farewell]
    cases hc : env.chat k (chatRequestFor env url input) with
    | error err =>
      rw [iteration_transport env name url k input err h hurl hc]
      exact key _ (print_ne_farewell _ 'E' rfl hE)
    | response code status body =>
      by_cases h200 : code = StatusOK
      · subst h200
        cases body with
        | error err =>
          rw [iteration_malformed env name url k input status err h hurl hc]
          exact key _ (print_ne_farewell _ 'E' rfl hE)
        | ok r =>
          rw [iteration_reply env name url k input status r h hurl hc]
          exact key _ (print_ne_farewell _ (Char.ofNat 0x1b) rfl (by decide))
      · rw [iteration_status env name url k input status code body h hurl hc h200]
        exact key _ (print_ne_farewell _ 'E' rfl hE)

theorem farewell_not_mem_turnsOf (env : Env) (name url : Str) (ls : List Str) (k : Nat)
    (h : ∀ l ∈ ls, ToLower env.lower (TrimSpace l) ≠ exitWord) :
    farewell ∉ turnsOf env name url ls k := by
  induction ls generalizing k with
  | nil => simp [turnsOf]
  | cons a t ih =>
    simp only [turnsOf, List.mem_append, not_or]
    exact ⟨farewell_not_mem_iteration env name url k a (h a (by simp)),
      ih (k + 1) (fun l hl => h l (by simp [hl]))⟩

theorem chatLoop_no_sentinel (env : Env) (name url : Str) (tokens : List Str) (k : Nat)
    (h : ∀ l ∈ tokens, ToLower env.lower (TrimSpace l) ≠ exitWord) :
    (chatLoop env name url tokens k).reason = .EndOfInput ∧
      (chatLoop env name url tokens k).events = turnsOf env name url tokens k ++ [prompt] := by
  induction tokens generalizing k with
  | nil => exact ⟨rfl, rfl⟩
  | cons a t ih =>
    have ha := h a (by simp)
    obtain ⟨h1, h2⟩ := ih (k + 1) (fun l hl => h l (by simp [hl]))
    rw [chatLoop_continue env name url k a t ha]
    exact ⟨h1, by simp [turnsOf, h2]⟩

/-- C5. For every stream of lines that holds no exit word, the empty stream included, the
loop hands every line to the exchange, in order, and then ends because the scanner has no
more line (`EndOfInput`). The iteration that finds the input exhausted prints the prompt
and nothing else: the trace is the iterations of the lines followed by one prompt, the
farewell line does not occur in it, and no line is printed for the end of the input. -/
theorem end_of_input_ends_session (env : Env) (name url : Str) (tokens : List Str) (k : Nat)
    (hno : ∀ l ∈ tokens, ToLower env.lower (TrimSpace l) ≠ exitWord) :
    (chatLoop env name url tokens k).reason = .EndOfInput ∧
    (chatLoop env name url tokens k).events = turnsOf env name url tokens k ++ [prompt] ∧
    farewell ∉ (chatLoop env name url tokens k).events ∧
    exchangeCalls (chatLoop env name url tokens k).events = tokens.map ChatRequest.mk ∧
    (env.urlError url = none →
      requestsSent (chatLoop env name url tokens k).events =
        tokens.map (chatRequestFor env url)) ∧
    chatLoop env name url [] k = ⟨[prompt], [], .EndOfInput⟩ := by
  obtain ⟨h1, h2⟩ := chatLoop_no_sentinel env name url tokens k hno
  refine ⟨h1, h2, ?_, ?_, ?_, rfl⟩
  · rw [h2]
    simp only [List.mem_append, List.mem_singleton, not_or]
    exact ⟨farewell_not_mem_turnsOf env name url tokens k hno, prompt_ne_farewell.symm⟩
  · rw [h2, exchangeCalls_append, exchangeCalls_turnsOf env name url tokens k hno]
    simp [exchangeCalls, prompt]
  · intro hurl
    rw [h2, requestsSent_append, requestsSent_turnsOf env name url tokens k hno hurl]
    simp [requestsSent, prompt]

/-- C5, at a stream of two lines. -/
theorem end_of_input_ends_session_witness :
    (∀ l ∈ ["hi".toList, "exit now".toList],
        ToLower demoEnv.lower (TrimSpace l) ≠ exitWord) ∧
      (chatLoop demoEnv "Ada".toList "u".toList ["hi".toList, "exit now".toList] 0).reason =
        .EndOfInput ∧
      exchangeCalls (chatLoop demoEnv "Ada".toList "u".toList
          ["hi".toList, "exit now".toList] 0).events =
        [⟨"hi".toList⟩, ⟨"exit now".toList⟩] :=
  ⟨by decide,
    (end_of_input_ends_session demoEnv "Ada".toList "u".toList
      ["hi".toList, "exit now".toList] 0 (by decide)).1,
    (end_of_input_ends_session demoEnv "Ada".toList "u".toList
      ["hi".toList, "exit now".toList] 0 (by decide)).2.2.2.1⟩

/-! ## Failed turns (C3) -/

/-- C3. A turn is dispatched when its line is not the exit word and its request is built.
Whatever ends its exchange in a failure, a transport error, a status other than
`http.StatusOK`, or a body that does not decode, the loop prints one error line for the
turn after the indicator was stopped, has handed one request to `client.Do` (no retry),
and goes on with the rest of the input, whose first action is the next prompt. The line is
`Error sending message: <err>`, `Error: <status line>` or
`Error decoding response: <err>`. -/
theorem failed_turn_reported_once (env : Env) (name url : Str) (k : Nat) (input : Str)
    (rest : List Str)
    (h : ToLower env.lower (TrimSpace input) ≠ exitWord)
    (hurl : env.urlError url = none) :
    (∀ err, env.chat k (chatRequestFor env url input) = .error err →
      (chatLoop env name url (input :: rest) k).events =
        turnEvents input (chatRequestFor env url input)
          ("Error sending message: ".toList ++ err ++ "\n".toList) ++
        (chatLoop env name url rest (k + 1)).events) ∧
    (∀ code status body,
      env.chat k (chatRequestFor env url input) = .response code status body →
      code ≠ StatusOK →
      (chatLoop env name url (input :: rest) k).events =
        turnEvents input (chatRequestFor env url input)
          ("Error: ".toList ++ status ++ "\n".toList) ++
        (chatLoop env name url rest (k + 1)).events) ∧
    (∀ status err,
      env.chat k (chatRequestFor env url input) = .response StatusOK status (.error err) →
      (chatLoop env name url (input :: rest) k).events =
        turnEvents input (chatRequestFor env url input)
          ("Error decoding response: ".toList ++ err ++ "\n".toList) ++
        (chatLoop env name url rest (k + 1)).events) ∧
    (chatLoop env name url rest (k + 1)).events.head? = some prompt ∧
    (chatLoop env name url (input :: rest) k).reason =
      (chatLoop env name url rest (k + 1)).reason ∧
    (∀ line, requestsSent (turnEvents input (chatRequestFor env url input) line) =
        [chatRequestFor env url input] ∧
      turnEvents input (chatRequestFor env url input) line =
        [prompt, .marshal ⟨input⟩, .spinnerStart, .send (chatRequestFor env url input),
          .recv, .spinnerStop, .print "\r".toList, .print line]) := by
  have hc := chatLoop_continue env name url k input rest h
  refine ⟨?_, ?_, ?_, chatLoop_head env name url rest (k + 1), by rw [hc], ?_⟩
  · intro err he
    rw [hc, iteration_transport env name url k input err h hurl he]
  · intro code status body he hcode
    rw [hc, iteration_status env name url k input status code body h hurl he hcode]
  · intro status err he
    rw [hc, iteration_malformed env name url k input status err h hurl he]
  · intro line
    exact ⟨by simp [requestsSent, turnEvents, prompt], rfl⟩

/-- C3, at the second request of the example environment, answered with status 500. -/
theorem failed_turn_reported_once_witness :
    (chatLoop demoEnv "Ada".toList "u".toList ["hi".toList, "again".toList] 1).events =
      turnEvents "hi".toList (chatRequestFor demoEnv "u".toList "hi".toList)
        "Error: 500 Internal Server Error\n".toList ++
      (chatLoop demoEnv "Ada".toList "u".toList ["again".toList] 2).events :=
  (failed_turn_reported_once demoEnv "Ada".toList "u".toList 1 "hi".toList
    ["again".toList] (by decide) (by rfl)).2.1 500 _ _ (by rfl) (by decide)

/-! ## Replies (C4) -/

/-- C4, as the code has it. For every dispatched turn whose response has status
`http.StatusOK` and a body that decodes, the loop prints, after the indicator was stopped,
the line made of the name given on the command line between the blue and the reset colour
codes, a colon, a blank and the text of `replyMessage`, and goes on with the rest of the
input, whose first action is the next prompt. With an empty text the turn is a reply all
the same and its line is the coloured name, the colon and the blank: it is not an empty
line. -/
theorem reply_rendered (env : Env) (name url : Str) (k : Nat) (input status : Str)
    (r : ChatResponse) (rest : List Str)
    (h : ToLower env.lower (TrimSpace input) ≠ exitWord)
    (hurl : env.urlError url = none)
    (hc : env.chat k (chatRequestFor env url input) = .response StatusOK status (.ok r)) :
    (chatLoop env name url (input :: rest) k).events =
      turnEvents input (chatRequestFor env url input)
        (colorBlue ++ name ++ colorReset ++ ": ".toList ++ r.ReplyMessage.Text ++
          "\n".toList) ++
      (chatLoop env name url rest (k + 1)).events ∧
    (chatLoop env name url rest (k + 1)).events.head? = some prompt ∧
    (r.ReplyMessage.Text = [] →
      (chatLoop env name url (input :: rest) k).events =
        turnEvents input (chatRequestFor env url input)
          (colorBlue ++ name ++ colorReset ++ ": \n".toList) ++
        (chatLoop env name url rest (k + 1)).events ∧
      colorBlue ++ name ++ colorReset ++ ": \n".toList ≠ "\n".toList) := by
  have hl := chatLoop_continue env name url k input rest h
  have hev : (chatLoop env name url (input :: rest) k).events =
      turnEvents input (chatRequestFor env url input)
        (colorBlue ++ name ++ colorReset ++ ": ".toList ++ r.ReplyMessage.Text ++
          "\n".toList) ++
      (chatLoop env name url rest (k + 1)).events := by
    rw [hl, iteration_reply env name url k input status r h hurl hc]
    rfl
  refine ⟨hev, chatLoop_head env name url rest (k + 1), ?_⟩
  intro ht
  refine ⟨?_, ?_⟩
  · rw [hev, ht]
    simp
  · intro hbad
    have := congrArg List.head? hbad
    simp [colorBlue] at this

/-- C4, at the first request of the example environment, answered with `hello`. -/
theorem reply_rendered_witness :
    (chatLoop demoEnv "Ada".toList "u".toList ["hi".toList] 0).events =
      turnEvents "hi".toList (chatRequestFor demoEnv "u".toList "hi".toList)
        "\x1b[34mAda\x1b[0m: hello\n".toList ++ [prompt] :=
  (reply_rendered demoEnv "Ada".toList "u".toList 0 "hi".toList "200 OK".toList
    ⟨⟨[], [], []⟩, ⟨[], "hello".toList, []⟩⟩ [] (by decide) (by rfl) (by rfl)).1

/-- C4 as stated fails: when the reply text is empty (the fifth request of the example
environment) the line printed is the coloured name with `: ` after it, not an empty
line. -/
theorem reply_rendered_counterexample :
    (iteration demoEnv "Ada".toList "u".toList 4 (some "hi".toList)).events.getLast? =
        some (.print "\x1b[34mAda\x1b[0m: \n".toList) ∧
      (iteration demoEnv "Ada".toList "u".toList 4 (some "hi".toList)).events.getLast? ≠
        some (.print "\n".toList) := by
  constructor
  · decide
  · decide

/-! ## The progress indicator in the foreground order (C9) -/

theorem phase_turnsOf (env : Env) (name url : Str) (ls : List Str) (k : Nat)
    (rest : List Event) :
    Phase.run .idle (turnsOf env name url ls k ++ rest) = Phase.run .idle rest := by
  induction ls generalizing k with
  | nil => rfl
  | cons a t ih =>
    simp only [turnsOf, List.append_assoc]
    rw [phase_iteration, ih]

/-- An iteration either sends nothing and leaves the indicator alone, or is a full turn. -/
theorem iteration_indicator (env : Env) (name url : Str) (k : Nat) (scan : Option Str) :
    (requestsSent (iteration env name url k scan).events = [] ∧
        Event.spinnerStart ∉ (iteration env name url k scan).events ∧
        Event.spinnerStop ∉ (iteration env name url k scan).events) ∨
      (∃ input req line, (iteration env name url k scan).events =
        [prompt, .marshal ⟨input⟩, .spinnerStart, .send req, .recv, .spinnerStop,
          .print "\r".toList, .print line]) := by
  cases scan with
  | none => left; simp [iteration_none, requestsSent, prompt]
  | some input =>
    by_cases h : ToLower env.lower (TrimSpace input) = exitWord
    · left; simp [iteration_sentinel env name url k input h, requestsSent, prompt, farewell]
    · rcases iteration_shape env name url k input h with ⟨_, _, hit⟩ | ⟨line, _, _, hit, _⟩
      · left; rw [hit]; simp [requestsSent, prompt]
      · right; exact ⟨input, _, line, by rw [hit]; rfl⟩

theorem count_iteration (env : Env) (name url : Str) (k : Nat) (scan : Option Str) :
    (iteration env name url k scan).events.count .spinnerStart =
        (requestsSent (iteration env name url k scan).events).length ∧
      (iteration env name url k scan).events.count .spinnerStop =
        (requestsSent (iteration env name url k scan).events).length := by
  rcases iteration_indicator env name url k scan with ⟨h1, h2, h3⟩ | ⟨input, req, line, h⟩
  · rw [h1, List.count_eq_zero_of_not_mem h2, List.count_eq_zero_of_not_mem h3]
    exact ⟨rfl, rfl⟩
  · rw [h]
    simp [requestsSent, prompt, List.count_cons]

theorem count_turnsOf (env : Env) (name url : Str) (ls : List Str) (k : Nat) :
    (turnsOf env name url ls k).count .spinnerStart =
        (requestsSent (turnsOf env name url ls k)).length ∧
      (turnsOf env name url ls k).count .spinnerStop =
        (requestsSent (turnsOf env name url ls k)).length := by
  induction ls generalizing k with
  | nil => exact ⟨rfl, rfl⟩
  | cons a t ih =>
    obtain ⟨h1, h2⟩ := count_iteration env name url k (some a)
    obtain ⟨h3, h4⟩ := ih (k + 1)
    simp only [turnsOf, List.count_append, requestsSent_append, List.length_append]
    omega

/-- C9. In the order of the foreground goroutine, over the whole loop: the indicator is
started only while none is running, the request is handed to `client.Do` only after the
start, the indicator is signalled to stop (`close(stopChan)`) only after `client.Do` has
returned, and the loop prints only while no indicator is running, so the line for the
outcome of a turn, error or reply, comes after the stop (`Phase.run` accepts the trace and
ends idle). Starts, stops and requests sent are equal in number. Every iteration either
sends nothing and neither starts nor stops an indicator, or consists of exactly: prompt,
encoding, start, send, return, stop, carriage return, result line. -/
theorem indicator_once_per_turn (env : Env) (name url : Str) (tokens : List Str) (k : Nat) :
    Phase.run .idle (chatLoop env name url tokens k).events = some .idle ∧
    (chatLoop env name url tokens k).events.count .spinnerStart =
      (requestsSent (chatLoop env name url tokens k).events).length ∧
    (chatLoop env name url tokens k).events.count .spinnerStop =
      (requestsSent (chatLoop env name url tokens k).events).length ∧
    (∀ (j : Nat) (scan : Option Str),
      (requestsSent (iteration env name url j scan).events = [] ∧
          Event.spinnerStart ∉ (iteration env name url j scan).events ∧
          Event.spinnerStop ∉ (iteration env name url j scan).events) ∨
        (∃ input req line, (iteration env name url j scan).events =
          [prompt, .marshal ⟨input⟩, .spinnerStart, .send req, .recv, .spinnerStop,
            .print "\r".toList, .print line])) := by
  refine ⟨?_, ?_, ?_, fun j scan => iteration_indicator env name url j scan⟩
  · rw [chatLoop_events, phase_turnsOf]
    have := phase_iteration env name url (k + (dispatched env tokens).length)
      (tokens[(dispatched env tokens).length]?) []
    simpa [Phase.run] using this
  · obtain ⟨h1, -⟩ := count_turnsOf env name url (dispatched env tokens) k
    obtain ⟨h2, -⟩ := count_iteration env name url (k + (dispatched env tokens).length)
      (tokens[(dispatched env tokens).length]?)
    rw [chatLoop_events, List.count_append, requestsSent_append, List.length_append, h1, h2]
  · obtain ⟨-, h1⟩ := count_turnsOf env name url (dispatched env tokens) k
    obtain ⟨-, h2⟩ := count_iteration env name url (k + (dispatched env tokens).length)
      (tokens[(dispatched env tokens).length]?)
    rw [chatLoop_events, List.count_append, requestsSent_append, List.length_append, h1, h2]

/-! ## The deferred terminal reset (C7) -/

theorem chatLoop_defers (env : Env) (name url : Str) (tokens : List Str) (k : Nat) :
    ∀ d ∈ (chatLoop env name url tokens k).defers, d = Deferred.bodyClose := by
  induction tokens generalizing k with
  | nil => simp [chatLoop]
  | cons input rest ih =>
    by_cases h : ToLower env.lower (TrimSpace input) = exitWord
    · simp [chatLoop_sentinel env name url k input rest h]
    · rw [chatLoop_continue env name url k input rest h]
      intro d hd
      simp only [List.mem_append] at hd
      rcases hd with hd | hd
      · exact ih (k + 1) d hd
      · rcases iteration_shape env name url k input h with ⟨_, _, hit⟩ | ⟨_, ds, _, hit, hds⟩
        · rw [hit] at hd; simp at hd
        · rw [hit] at hd; exact hds d hd

theorem run_failed (env : Env) (name stdin err : Str)
    (h : (findNomiByName env name).2 = .error err) :
    chatCmd.Run env name stdin =
      ⟨(findNomiByName env name).1 ++ [.print (err ++ "\n".toList)], [.clearScreen],
        .ResolutionFailure⟩ := by
  simp only [chatCmd.Run, h]

theorem run_resolved (env : Env) (name stdin nomiID : Str)
    (h : (findNomiByName env name).2 = .ok nomiID) :
    chatCmd.Run env name stdin =
      ⟨(findNomiByName env name).1 ++ [.clearScreen] ++ banner name ++
          (chatLoop env name (env.baseURL ++ "/nomis/".toList ++ nomiID ++ "/chat".toList)
            (NewScanner stdin) 0).events,
        (chatLoop env name (env.baseURL ++ "/nomis/".toList ++ nomiID ++ "/chat".toList)
            (NewScanner stdin) 0).defers ++ [.clearScreen],
        (chatLoop env name (env.baseURL ++ "/nomis/".toList ++ nomiID ++ "/chat".toList)
            (NewScanner stdin) 0).reason⟩ := by
  simp only [chatCmd.Run, h]

/-- The defer stack of a run: the body closes of the loop, and the terminal reset at the
bottom. -/
theorem run_defers (env : Env) (name stdin : Str) :
    ∃ closes, (chatCmd.Run env name stdin).defers = closes ++ [.clearScreen] ∧
      ∀ d ∈ closes, d = Deferred.bodyClose := by
  cases hf : (findNomiByName env name).2 with
  | error err => exact ⟨[], by rw [run_failed env name stdin err hf]; rfl, by simp⟩
  | ok nomiID =>
    exact ⟨_, by rw [run_resolved env name stdin nomiID hf], chatLoop_defers env name _ _ 0⟩

/-- C7. On every run of the command, whichever way it returns (identity resolution
failed, exit word, end of input), the defer stack holds the terminal reset `clearScreen`
exactly once, at its bottom under the body closes of the loop, so that the reset runs as
the last action of the run: the trace ends with it and the terminal operations of the run
end with those of `clearScreen`. -/
theorem clearScreen_deferred_last (env : Env) (name stdin : Str) :
    (chatCmd.Run env name stdin).defers.count .clearScreen = 1 ∧
    (∃ closes, (chatCmd.Run env name stdin).defers = closes ++ [.clearScreen] ∧
      ∀ d ∈ closes, d = Deferred.bodyClose) ∧
    (chatCmd.Run env name stdin).trace.getLast? = some .clearScreen ∧
    (∃ before, (chatCmd.Run env name stdin).trace.flatMap (Event.termOps env.GOOS) =
      before ++ clearScreen env.GOOS) ∧
    ((chatCmd.Run env name stdin).reason = .ResolutionFailure ∨
      (chatCmd.Run env name stdin).reason = .UserExit ∨
      (chatCmd.Run env name stdin).reason = .EndOfInput) := by
  obtain ⟨closes, hd, hcl⟩ := run_defers env name stdin
  refine ⟨?_, ⟨closes, hd, hcl⟩, ?_, ?_, ?_⟩
  · rw [hd, List.count_append]
    have : closes.count Deferred.clearScreen = 0 := by
      apply List.count_eq_zero_of_not_mem
      intro hmem
      exact absurd (hcl _ hmem) (by decide)
    simp [this]
  · simp [RunResult.trace, hd, Deferred.run]
  · refine ⟨((chatCmd.Run env name stdin).body ++ closes.map Deferred.run).flatMap
      (Event.termOps env.GOOS), ?_⟩
    simp [RunResult.trace, hd, Deferred.run, Event.termOps]
  · cases (chatCmd.Run env name stdin).reason <;> simp

/-! ## Identity resolution (C8) -/

theorem searchNomis_find (env : Env) (name : Str) (nomis : List Nomi) :
    searchNomis env name nomis =
      match nomis.find? (fun n => EqualFold env.fold n.Name name) with
      | some n => .ok n.UUID
      | none => .error ("no Nomi found with the name: ".toList ++ name) := by
  induction nomis with
  | nil => rfl
  | cons n rest ih =>
    by_cases h : EqualFold env.fold n.Name name = true
    · simp [searchNomis, List.find?, h]
    · simp only [Bool.not_eq_true] at h
      simp [searchNomis, List.find?, h, ih]

theorem setHeader_list (env : Env) :
    (Request.mk "GET".toList (env.baseURL ++ "/nomis".toList) [] none).setHeader
      "Authorization".toList ("Bearer ".toList ++ env.apiKey) = listRequestFor env := by
  simp [Request.setHeader, listRequestFor]

theorem findNomiByName_listed (env : Env) (name status : Str) (nomis : List Nomi)
    (hurl : env.urlError (env.baseURL ++ "/nomis".toList) = none)
    (hlist : env.listing (listRequestFor env) = .response StatusOK status (.ok nomis)) :
    findNomiByName env name =
      ([.send (listRequestFor env), .recv, .bodyClose], searchNomis env name nomis) := by
  simp only [findNomiByName, NewRequest, hurl, setHeader_list, hlist]
  rfl

/-- The events of `findNomiByName`: nothing, or the listing request and its return,
followed by the close of the body when there was a response. -/
theorem findNomiByName_fst (env : Env) (name : Str) :
    (findNomiByName env name).1 = [] ∨
      (findNomiByName env name).1 = [.send (listRequestFor env), .recv] ∨
      (findNomiByName env name).1 = [.send (listRequestFor env), .recv, .bodyClose] := by
  cases hu : env.urlError (env.baseURL ++ "/nomis".toList) with
  | some err => left; simp only [findNomiByName, NewRequest, hu]
  | none =>
    right
    cases hl : env.listing (listRequestFor env) with
    | error err => left; simp only [findNomiByName, NewRequest, hu, setHeader_list, hl]
    | response code status body =>
      right
      by_cases hc : code = StatusOK
      · cases body <;>
          simp only [findNomiByName, NewRequest, hu, setHeader_list, hl, hc, ne_eq,
            not_true_eq_false, if_false]
      · simp only [findNomiByName, NewRequest, hu, setHeader_list, hl, hc, ne_eq,
          not_false_eq_true, if_true]

/-- What `findNomiByName` does never involves the prompt, an outgoing message or a request
with a body. -/
theorem findNomiByName_events (env : Env) (name : Str) :
    prompt ∉ (findNomiByName env name).1 ∧
      exchangeCalls (findNomiByName env name).1 = [] ∧
      ∀ req ∈ requestsSent (findNomiByName env name).1, req.body = none := by
  rcases findNomiByName_fst env name with h | h | h <;> rw [h] <;>
    simp [exchangeCalls, requestsSent, prompt, listRequestFor]

/-- C8. When the listing was fetched and decoded, `findNomiByName` returns the UUID of the
first entry whose name equals the requested name under `strings.EqualFold`, and it returns
the not-found failure if and only if no entry matches. Whenever `findNomiByName` fails,
for whatever reason, the command prints the error as one line and returns without
entering the loop: after the events of the lookup there is that line and the deferred
terminal reset, no prompt is printed, the exchange is never entered and no request with a
body is sent. -/
theorem resolution_first_match_or_fail (env : Env) (name status stdin : Str)
    (nomis : List Nomi)
    (hurl : env.urlError (env.baseURL ++ "/nomis".toList) = none)
    (hlist : env.listing (listRequestFor env) = .response StatusOK status (.ok nomis)) :
    ((findNomiByName env name).2 =
      match nomis.find? (fun n => EqualFold env.fold n.Name name) with
      | some n => .ok n.UUID
      | none => .error ("no Nomi found with the name: ".toList ++ name)) ∧
    ((findNomiByName env name).2 = .error ("no Nomi found with the name: ".toList ++ name) ↔
      ∀ n ∈ nomis, EqualFold env.fold n.Name name = false) ∧
    (∀ err, (findNomiByName env name).2 = .error err →
      (chatCmd.Run env name stdin).trace =
        (findNomiByName env name).1 ++ [.print (err ++ "\n".toList), .clearScreen] ∧
      (chatCmd.Run env name stdin).reason = .ResolutionFailure ∧
      prompt ∉ (chatCmd.Run env name stdin).trace ∧
      exchangeCalls (chatCmd.Run env name stdin).trace = [] ∧
      ∀ req ∈ requestsSent (chatCmd.Run env name stdin).trace, req.body = none) := by
  have hfind := findNomiByName_listed env name status nomis hurl hlist
  have hres : (findNomiByName env name).2 =
      match nomis.find? (fun n => EqualFold env.fold n.Name name) with
      | some n => .ok n.UUID
      | none => .error ("no Nomi found with the name: ".toList ++ name) := by
    rw [hfind]; exact searchNomis_find env name nomis
  refine ⟨hres, ?_, ?_⟩
  · rw [hres]
    cases hf : nomis.find? (fun n => EqualFold env.fold n.Name name) with
    | none =>
      simp only [true_iff]
      intro n hn
      have := List.find?_eq_none.mp hf n hn
      simpa using this
    | some n =>
      simp only [false_iff, reduceCtorEq]
      intro hall
      have hmem := List.mem_of_find?_eq_some hf
      have hp := List.find?_some hf
      rw [hall n hmem] at hp
      exact absurd hp (by decide)
  · intro err herr
    obtain ⟨h1, h2, h3⟩ := findNomiByName_events env name
    have htr : (chatCmd.Run env name stdin).trace =
        (findNomiByName env name).1 ++ [.print (err ++ "\n".toList), .clearScreen] := by
      rw [run_failed env name stdin err herr]
      simp [RunResult.trace, Deferred.run]
    refine ⟨htr, by rw [run_failed env name stdin err herr], ?_, ?_, ?_⟩
    · rw [htr]
      simp only [List.mem_append, List.mem_cons, List.mem_singleton, not_or,
        List.not_mem_nil, or_false]
      refine ⟨h1, ?_, by simp [prompt]⟩
      intro hp
      have h4 : (err ++ "\n".toList).getLast? =
          (colorGreen ++ "You".toList ++ colorReset ++ ": ".toList).getLast? := by
        simp only [prompt, Event.print.injEq] at hp
        rw [hp]
      rw [show (colorGreen ++ "You".toList ++ colorReset ++ ": ".toList).getLast? =
        some ' ' from by decide] at h4
      simp at h4
    · rw [htr, exchangeCalls_append, h2]
      simp [exchangeCalls]
    · rw [htr, requestsSent_append]
      intro req hreq
      simp only [requestsSent, List.filterMap_cons, List.filterMap_nil, List.append_nil]
        at hreq
      exact h3 req hreq


/-- C8, in the example environment: `bob` resolves to the entry `Bob`, and for `Eve`, who
is not listed, the run is the lookup, one line and the terminal reset. -/
theorem resolution_first_match_or_fail_witness :
    (findNomiByName demoEnv "bob".toList).2 = .ok "u-2".toList ∧
      (chatCmd.Run demoEnv "Eve".toList "hi\n".toList).trace =
        [.send (listRequestFor demoEnv), .recv, .bodyClose,
          .print "no Nomi found with the name: Eve\n".toList, .clearScreen] :=
  ⟨(resolution_first_match_or_fail demoEnv "bob".toList "200 OK".toList [] _
      (by rfl) (by rfl)).1,
    ((resolution_first_match_or_fail demoEnv "Eve".toList "200 OK".toList "hi\n".toList _
      (by rfl) (by rfl)).2.2 "no Nomi found with the name: Eve".toList (by rfl)).1⟩

/-! ## Line length (C6) -/

theorem splitLines_line (line more : Str) (h : '\n' ∉ line) :
    splitLines (line ++ '\n' :: more) = line :: splitLines more := by
  induction line with
  | nil => simp [splitLines]
  | cons c cs ih =>
    have hc : c ≠ '\n' := fun hc => h (by simp [hc])
    have hcs : '\n' ∉ cs := fun hm => h (by simp [hm])
    simp [splitLines, hc, ih hcs]

theorem byteLen_replicate_a (n : Nat) : byteLen (List.replicate n 'a') = n := by
  have h1 : Char.utf8Size 'a' = 1 := by decide
  simp [byteLen, List.map_replicate, List.sum_replicate, h1]

theorem newline_not_mem_replicate_a (n : Nat) : '\n' ∉ List.replicate n 'a' := by
  intro h
  exact absurd (List.eq_of_mem_replicate h) (by decide)

/-- A first line of `MaxScanTokenSize` bytes or more: the scanner delivers nothing. -/
theorem newScanner_long (n : Nat) (more : Str) (h : MaxScanTokenSize ≤ n) :
    NewScanner (List.replicate n 'a' ++ '\n' :: more) = [] := by
  simp only [NewScanner, splitLines_line _ more (newline_not_mem_replicate_a n), scanTokens,
    byteLen_replicate_a, h, if_true]

/-- C6, as the code has it. A line of the input that is not the exit word and is shorter
than `bufio.MaxScanTokenSize` (65536 bytes), the size up to which the buffer of the scanner
the loop reads with grows, is delivered whole (without the carriage return that may end
it) and handed to the exchange as one message whose text is that line, and the loop goes
on with the input after the line, starting with the next prompt. -/
theorem line_within_buffer_dispatched (env : Env) (name url : Str) (k : Nat)
    (line more : Str)
    (hline : '\n' ∉ line)
    (hlen : byteLen line < MaxScanTokenSize)
    (hne : ToLower env.lower (TrimSpace (dropCR line)) ≠ exitWord) :
    NewScanner (line ++ '\n' :: more) = dropCR line :: NewScanner more ∧
    exchangeCalls (iteration env name url k (some (dropCR line))).events =
      [⟨dropCR line⟩] ∧
    (chatLoop env name url (NewScanner (line ++ '\n' :: more)) k).events =
      (iteration env name url k (some (dropCR line))).events ++
        (chatLoop env name url (NewScanner more) (k + 1)).events ∧
    (chatLoop env name url (NewScanner more) (k + 1)).events.head? = some prompt := by
  have hscan : NewScanner (line ++ '\n' :: more) = dropCR line :: NewScanner more := by
    simp [NewScanner, splitLines_line line more hline, scanTokens, Nat.not_le.mpr hlen]
  refine ⟨hscan, exchangeCalls_iteration env name url k _ hne, ?_,
    chatLoop_head env name url _ (k + 1)⟩
  rw [hscan, chatLoop_continue env name url k _ _ hne]

/-- C6 as amended, at the line `hi` ended by carriage return and newline. -/
theorem line_within_buffer_dispatched_witness :
    NewScanner ("hi\r".toList ++ '\n' :: "exit now\n".toList) =
        "hi".toList :: NewScanner "exit now\n".toList ∧
      exchangeCalls (iteration demoEnv "Ada".toList "u".toList 0
        (some "hi".toList)).events = [⟨"hi".toList⟩] :=
  ⟨(line_within_buffer_dispatched demoEnv "Ada".toList "u".toList 0 "hi\r".toList
      "exit now\n".toList (by decide) (by decide) (by decide)).1,
    (line_within_buffer_dispatched demoEnv "Ada".toList "u".toList 0 "hi\r".toList
      "exit now\n".toList (by decide) (by decide) (by decide)).2.1⟩

/-- C6 as stated fails: on an input whose first line has 65536 bytes the scanner delivers
no line at all, neither the long one nor the line `hello` after it; the run enters no
exchange and ends as on the end of the input. -/
theorem line_within_buffer_dispatched_counterexample :
    NewScanner longInput = [] ∧
      exchangeCalls (chatCmd.Run demoEnv "Ada".toList longInput).trace = [] ∧
      requestsSent (chatCmd.Run demoEnv "Ada".toList longInput).trace =
        [listRequestFor demoEnv] ∧
      (chatCmd.Run demoEnv "Ada".toList longInput).reason = .EndOfInput := by
  have hscan : NewScanner longInput = [] := newScanner_long 65536 _ (by decide)
  have hfind : (findNomiByName demoEnv "Ada".toList).2 = .ok "u-1".toList := by rfl
  rw [run_resolved demoEnv "Ada".toList longInput "u-1".toList hfind, hscan]
  exact ⟨rfl, by decide, by decide, by decide⟩

/-! ## The stop of the indicator does not wait (C10) -/

/-- C10 at a schedule that breaks it. The spinner goroutine takes the `default` branch of
its inner `select` while `stopChan` is still open; then `client.Do` returns and the
foreground goroutine closes the channel, writes the carriage return and writes the line of
the turn; then the spinner goroutine performs the `Printf` it had already decided on. The
glyph is written after the stop has returned, and after the line of the turn:
`close(stopChan)` does not wait for the goroutine. Under the schedule in which the spinner
goroutine reaches its next `select` only after the stop, nothing is written after it. -/
theorem glyph_after_stop :
    (runSchedule "Ada: hello\n".toList
        [.spinner, .spinner, .foreground, .foreground, .foreground, .foreground, .spinner]
        TurnState.init).trace =
      [.stop, .mainWrite "\r".toList, .mainWrite "Ada: hello\n".toList,
        .spinnerWrite (glyphWrite "-".toList)] ∧
    quietAfterStop (runSchedule "Ada: hello\n".toList
        [.spinner, .spinner, .foreground, .foreground, .foreground, .foreground, .spinner]
        TurnState.init).trace = false ∧
    (runSchedule "Ada: hello\n".toList
        [.spinner, .spinner, .spinner, .foreground, .foreground, .foreground, .foreground,
          .spinner, .spinner, .spinner]
        TurnState.init).trace =
      [.spinnerWrite (glyphWrite "-".toList), .stop, .mainWrite "\r".toList,
        .mainWrite "Ada: hello\n".toList] := by
  refine ⟨by decide, by decide, by decide⟩

end NomiCli
